import Mathlib

/-!
Verification of the villa project manager's core data engine: loading and
parsing of sheet rows, serialization back to the sheet, filtered views,
progress/cost mutation with status re-derivation, and aggregation.

The embedding follows `app.py`.  A sheet row is a `Row`; the parsed DataFrame
row (with the derived `PROGRESS_NUM`, `START`, `END` columns) is a `Task`.
Python floats stored in the `PROGRESS_NUM` column are modelled by `PyFloat`:
either NaN (`none`) or a finite decimal (`Dec`), which matches the behaviour
of `float(s)` / `str(x)` on the decimal strings this application produces
(shortest-representation floats round-trip through their decimal text).
-/

set_option autoImplicit false

namespace VillaPM

/-- The character for a decimal digit `d < 10`. -/
def digitChar (d : Nat) : Char := Char.ofNat (48 + d)

/-- Inverse of `digitChar` on characters: digit value of a character, if any. -/
def charToDigit (c : Char) : Option Nat :=
  if 48 ≤ c.toNat ∧ c.toNat ≤ 57 then some (c.toNat - 48) else none

/-- Fuel-driven worker for the little-endian digit list (structural recursion
so that concrete values reduce inside the kernel); `fuel ≥ n` suffices. -/
def natDigitsLEFuel : Nat → Nat → List Nat
  | 0, n => [n]
  | fuel + 1, n => if n < 10 then [n] else n % 10 :: natDigitsLEFuel fuel (n / 10)

/-- Little-endian decimal digits of a natural number (never empty). -/
def natDigitsLE (n : Nat) : List Nat := natDigitsLEFuel n n

/-- Big-endian decimal digits of a natural number. -/
def natDigits (n : Nat) : List Nat := (natDigitsLE n).reverse

/-- Value of a big-endian digit list. -/
def natOfDigits (ds : List Nat) : Nat := ds.foldl (fun a d => 10 * a + d) 0

/-- Read a character list as a digit list; fails on any non-digit. -/
def digitsOfChars : List Char → Option (List Nat)
  | [] => some []
  | c :: rest =>
      match charToDigit c, digitsOfChars rest with
      | some d, some ds => some (d :: ds)
      | _, _ => none

/-- A finite decimal: integer part plus the fraction digit list.  `str` of a
Python float always shows at least one fraction digit, so `75.0` is
`⟨75, [0]⟩`. -/
structure Dec where
  intPart : Nat
  fracDigits : List Nat
deriving DecidableEq, Repr

/-- A value of the float column `PROGRESS_NUM`: `none` models NaN. -/
abbrev PyFloat := Option Dec

/-- Canonical-form decimals: the ones `str` of a Python float produces
(digits below ten; no trailing fraction zero except the single digit of an
integral value). -/
def Dec.normal (d : Dec) : Prop :=
  (∀ x ∈ d.fracDigits, x < 10) ∧
    (d.fracDigits = [0] ∨ (d.fracDigits ≠ [] ∧ d.fracDigits.getLast? ≠ some 0))

instance decDecNormal (d : Dec) : Decidable d.normal := by
  unfold Dec.normal; infer_instance

/-- Canonical-form float values (`NaN` is canonical). -/
def PyFloat.normal : PyFloat → Prop
  | none => True
  | some d => d.normal

instance decPyFloatNormal : (v : PyFloat) → Decidable v.normal
  | none => isTrue trivial
  | some d => decDecNormal d

/-- Characters of Python `str` applied to a float value. -/
def pyFloatChars : PyFloat → List Char
  | none => ['n', 'a', 'n']
  | some d => (natDigits d.intPart).map digitChar ++ '.' :: d.fracDigits.map digitChar

/-- Python `str` of a float value. -/
def pyStr (v : PyFloat) : String := String.mk (pyFloatChars v)

/-- Split a character list on a separator character (the result list is never
empty). -/
def splitOnChar (sep : Char) : List Char → List (List Char)
  | [] => [[]]
  | c :: cs =>
      match splitOnChar sep cs with
      | [] => [[]]
      | h :: t => if c = sep then [] :: h :: t else (c :: h) :: t

/-- Drop trailing zeros of a fraction digit list. -/
def stripTrailingZeros (ds : List Nat) : List Nat :=
  (ds.reverse.dropWhile (· == 0)).reverse

/-- Normalize a parsed fraction digit list the way float parsing collapses
`"75.50"` and `"75.5"` (and `"75."`) to the same value. -/
def normFrac (ds : List Nat) : List Nat :=
  match stripTrailingZeros ds with
  | [] => [0]
  | l => l

/-- Model of Python `float(s)` on the decimal strings relevant here: `"nan"`,
digit strings, and digit strings with one decimal point; anything else raises,
i.e. yields `none`.  (Signs, exponents and whitespace never occur in this
application's progress values.) -/
def parsePyFloatChars (cs : List Char) : Option PyFloat :=
  if cs = ['n', 'a', 'n'] then some none
  else
    match splitOnChar '.' cs with
    | [a] =>
        if a = [] then none
        else (digitsOfChars a).map fun ds => some ⟨natOfDigits ds, [0]⟩
    | [a, b] =>
        if a = [] then none
        else
          match digitsOfChars a, digitsOfChars b with
          | some da, some db => some (some ⟨natOfDigits da, normFrac db⟩)
          | _, _ => none
    | _ => none

/-- Model of pandas `.str.rstrip` with argument the percent sign: drop every
trailing `%`. -/
def rstripPercent (cs : List Char) : List Char :=
  (cs.reverse.dropWhile (· == '%')).reverse

/-- A parsed calendar date. -/
structure Date where
  day : Nat
  month : Nat
  year : Nat
deriving DecidableEq, Repr

/-- Digits of a nonempty character list as a natural number. -/
def parseNatChars (cs : List Char) : Option Nat :=
  if cs = [] then none else (digitsOfChars cs).map natOfDigits

/-- Model of `pd.to_datetime` with the fixed day/month/year format and
coercion of errors: an unparseable string becomes a null date (`none`). -/
def parseDate (s : String) : Option Date :=
  match splitOnChar '/' s.data with
  | [d, m, y] =>
      match parseNatChars d, parseNatChars m, parseNatChars y with
      | some dd, some mm, some yy =>
          if 1 ≤ dd ∧ dd ≤ 31 ∧ 1 ≤ mm ∧ mm ≤ 12 ∧ y.length = 4 then
            some ⟨dd, mm, yy⟩
          else none
      | _, _, _ => none
  | _ => none

/-- One row of the remote sheet, with the fixed column contract of the store:
PROJECT, TASK_ID, TASK_NAME, TYPE, ASSIGNED_TO, START_DATE, END_DATE,
PROGRESS, STATUS, PRIORITY, BUDGET, ACTUAL_COST. -/
structure Row where
  project : String
  task_id : String
  task_name : String
  ttype : String
  assigned_to : String
  start_date : String
  end_date : String
  progress : String
  status : String
  priority : String
  budget : Int
  actual_cost : Int
deriving DecidableEq, Repr

/-- A parsed DataFrame row: the raw row plus the derived columns added by
`load_data` (`PROGRESS_NUM`, `START`, `END`). -/
structure Task where
  row : Row
  progress_num : PyFloat
  start : Option Date
  endd : Option Date
deriving DecidableEq, Repr

/-- The per-row cleaning step of `load_data`: `PROGRESS_NUM` from the
percent-stripped progress text (raising, i.e. `none`, on a malformed value),
`START`/`END` from the date texts with errors coerced to null. -/
def cleanRow (r : Row) : Option Task :=
  (parsePyFloatChars (rstripPercent r.progress.data)).map fun p =>
    { row := r
      progress_num := p
      start := parseDate r.start_date
      endd := parseDate r.end_date }

/-- Sequence a fallible function over a list; any failure fails the whole
traversal (the behaviour of a raising column conversion). -/
def optMapM {α β : Type} (f : α → Option β) : List α → Option (List β)
  | [] => some []
  | a :: as =>
      match f a, optMapM f as with
      | some b, some bs => some (b :: bs)
      | _, _ => none

/-- `load_data`: parse every row; a raising progress conversion is caught by
the surrounding `except`, which reports the error and returns an empty
DataFrame. -/
def load_data (rows : List Row) : List Task :=
  match optMapM cleanRow rows with
  | some ts => ts
  | none => []

/-- The serialization step of `save_data`: `PROGRESS` is regenerated as
`str(PROGRESS_NUM) + the percent sign`, and the derived columns are dropped,
leaving a plain `Row`. -/
def serializeTask (t : Task) : Row :=
  { t.row with progress := String.mk (pyFloatChars t.progress_num ++ ['%']) }

/-- The rows `save_data` uploads (clear-then-write of the whole collection). -/
def save_rows (df : List Task) : List Row := df.map serializeTask

/-- Sidebar project filter: the sentinel option matches every row, otherwise
equality on PROJECT. -/
def filterProject (pf : String) (df : List Task) : List Task :=
  if pf = "All" then df else df.filter fun t => t.row.project == pf

/-- Sidebar task-type filter: membership of TYPE in the selected list. -/
def filterTypes (tf : List String) (df : List Task) : List Task :=
  df.filter fun t => tf.contains t.row.ttype

/-- Sidebar status filter: membership of STATUS in the selected list. -/
def filterStatuses (sf : List String) (df : List Task) : List Task :=
  df.filter fun t => sf.contains t.row.status

/-- The filter pipeline of `main` (project, then type, then status). -/
def applyFilters (pf : String) (tf sf : List String) (df : List Task) : List Task :=
  filterStatuses sf (filterTypes tf (filterProject pf df))

/-- The update applied to a row matched by the progress-update mask: set
`PROGRESS_NUM` (an integer assigned into the float column), set the textual
`PROGRESS`, and re-derive STATUS (`100` forces Complete, positive values force
In Progress, zero leaves STATUS untouched). -/
def updateProgressRow (p : Nat) (t : Task) : Task :=
  { t with
    progress_num := some ⟨p, [0]⟩
    row := { t.row with
      progress := String.mk ((natDigits p).map digitChar ++ ['%'])
      status :=
        if p = 100 then "Complete"
        else if 0 < p then "In Progress"
        else t.row.status } }

/-- The progress-update mutation: `df.loc` with the TASK_ID equality mask
applied to the whole frame. -/
def updateProgress (df : List Task) (tid : String) (p : Nat) : List Task :=
  df.map fun t => if t.row.task_id == tid then updateProgressRow p t else t

/-- The cost-update mutation: `df.loc` with the TASK_ID equality mask, setting
only ACTUAL_COST. -/
def updateActualCost (df : List Task) (tid : String) (c : Int) : List Task :=
  df.map fun t =>
    if t.row.task_id == tid then { t with row := { t.row with actual_cost := c } } else t

/-- Outcome of one update-button handler: the in-memory frame, the remote
store contents, the surfaced save result, and whether the cache was cleared. -/
structure HandlerOutcome where
  collection : List Task
  store : List Row
  success : Bool
  cacheCleared : Bool
deriving Repr

/-- The Update Progress button handler: mutate the frame, then
`if save_data(df): success, clear cache, rerun`; the parameter `saveOk` is the
outcome of the network write. -/
def progressUpdateHandler (df : List Task) (store : List Row) (tid : String)
    (p : Nat) (saveOk : Bool) : HandlerOutcome :=
  let dfNew := updateProgress df tid p
  if saveOk then ⟨dfNew, save_rows dfNew, true, true⟩
  else ⟨dfNew, store, false, false⟩

/-- The Update Cost button handler, same pattern as the progress handler. -/
def costUpdateHandler (df : List Task) (store : List Row) (tid : String)
    (c : Int) (saveOk : Bool) : HandlerOutcome :=
  let dfNew := updateActualCost df tid c
  if saveOk then ⟨dfNew, save_rows dfNew, true, true⟩
  else ⟨dfNew, store, false, false⟩

/-- Contents of the data cache after a handler runs: a cleared cache makes the
next read load the store, an untouched cache keeps serving the previously
loaded collection. -/
def cacheAfter (cache : List Task) (h : HandlerOutcome) : List Task :=
  if h.cacheCleared then load_data h.store else cache

/-- The whole update-progress flow of `main`: load the store, apply the
sidebar filters in place, mutate the (filtered) frame, and upload it. -/
def updateProgressFlow (storeRows : List Row) (pf : String) (tf sf : List String)
    (tid : String) (p : Nat) : List Row :=
  save_rows (updateProgress (applyFilters pf tf sf (load_data storeRows)) tid p)

/-- Rational value of a finite decimal. -/
def Dec.toRat (d : Dec) : ℚ :=
  (d.intPart : ℚ) + (natOfDigits d.fracDigits : ℚ) / (10 : ℚ) ^ d.fracDigits.length

/-- pandas `Series.mean` with its default NaN skipping: the mean of the
non-null values, NaN (`none`) when there are none. -/
def seriesMean (vs : List PyFloat) : Option ℚ :=
  let xs := vs.filterMap fun v => v.map Dec.toRat
  if xs.length = 0 then none else some (xs.sum / (xs.length : ℚ))

/-- The rows of one project group. -/
def projectGroup (df : List Task) (proj : String) : List Task :=
  df.filter fun t => t.row.project == proj

/-- The guarded dashboard metric: mean progress of the group if it has rows,
literal zero otherwise. -/
def villaProgressMetric (df : List Task) (proj : String) : Option ℚ :=
  if 0 < (projectGroup df proj).length then
    seriesMean ((projectGroup df proj).map Task.progress_num)
  else some 0

/-- The weekly report's per-project mean: the same `Series.mean`, with no
emptiness guard. -/
def reportMean (df : List Task) (proj : String) : Option ℚ :=
  seriesMean ((projectGroup df proj).map Task.progress_num)

/-- The critical-pending selection: PRIORITY in the critical set and STATUS
not Complete. -/
def criticalPending (df : List Task) : List Task :=
  df.filter fun t =>
    (["Critical", "High"].contains t.row.priority) && !(t.row.status == "Complete")

/-- The selectbox label lookup: TASK_NAME of the first row of the filtered
frame (`.values` indexed at zero). -/
def taskNameLookup (df : List Task) (tid : String) : Option String :=
  ((df.filter fun t => t.row.task_id == tid).map fun t => t.row.task_name).head?

/-- A well-formed parsed row: canonical progress value and derived date
columns consistent with the date texts — exactly what `load_data` produces. -/
def Task.wf (t : Task) : Prop :=
  PyFloat.normal t.progress_num ∧
    t.start = parseDate t.row.start_date ∧ t.endd = parseDate t.row.end_date

instance decTaskWf (t : Task) : Decidable t.wf := by
  unfold Task.wf; infer_instance

/-! ### Digit and decimal string lemmas -/

theorem natDigitsLEFuel_congr (n : Nat) :
    ∀ f1 f2, n ≤ f1 → n ≤ f2 → natDigitsLEFuel f1 n = natDigitsLEFuel f2 n := by
  induction n using Nat.strong_induction_on with
  | _ n ih =>
    intro f1 f2 h1 h2
    match f1, f2 with
    | 0, 0 => rfl
    | 0, f2 + 1 =>
        have hn : n = 0 := by omega
        subst hn
        simp [natDigitsLEFuel]
    | f1 + 1, 0 =>
        have hn : n = 0 := by omega
        subst hn
        simp [natDigitsLEFuel]
    | f1 + 1, f2 + 1 =>
        show (if n < 10 then [n] else n % 10 :: natDigitsLEFuel f1 (n / 10)) =
          (if n < 10 then [n] else n % 10 :: natDigitsLEFuel f2 (n / 10))
        split
        · rfl
        · rename_i h
          congr 1
          exact ih (n / 10) (by omega) f1 f2 (by omega) (by omega)

theorem natDigitsLE_eq (n : Nat) :
    natDigitsLE n = if n < 10 then [n] else n % 10 :: natDigitsLE (n / 10) := by
  match n with
  | 0 => rfl
  | k + 1 =>
      show (if k + 1 < 10 then [k + 1] else (k + 1) % 10 :: natDigitsLEFuel k ((k + 1) / 10)) = _
      split
      · rfl
      · rename_i h
        congr 1
        exact natDigitsLEFuel_congr ((k + 1) / 10) k ((k + 1) / 10) (by omega) (by omega)

theorem natDigitsLE_ne_nil (n : Nat) : natDigitsLE n ≠ [] := by
  rw [natDigitsLE_eq]
  split <;> simp

theorem natDigitsLE_lt_ten (n : Nat) : ∀ x ∈ natDigitsLE n, x < 10 := by
  induction n using Nat.strong_induction_on with
  | _ n ih =>
    rw [natDigitsLE_eq]
    split
    · rename_i h
      intro x hx
      simp at hx
      omega
    · rename_i h
      intro x hx
      rcases List.mem_cons.mp hx with he | hm
      · omega
      · exact ih (n / 10) (by omega) x hm

theorem natOfDigits_append_single (l : List Nat) (d : Nat) :
    natOfDigits (l ++ [d]) = 10 * natOfDigits l + d := by
  simp [natOfDigits, List.foldl_append]

theorem natOfDigits_natDigits (n : Nat) : natOfDigits (natDigits n) = n := by
  induction n using Nat.strong_induction_on with
  | _ n ih =>
    rw [natDigits, natDigitsLE_eq]
    split
    · rename_i h
      simp [natOfDigits]
    · rename_i h
      rw [List.reverse_cons, natOfDigits_append_single]
      have hrec := ih (n / 10) (by omega)
      rw [natDigits] at hrec
      omega

theorem digitChar_spec (d : Nat) (h : d < 10) :
    charToDigit (digitChar d) = some d ∧ digitChar d ≠ '.' ∧ digitChar d ≠ '%' ∧
      digitChar d ≠ 'n' ∧ digitChar d ≠ '/' := by
  interval_cases d <;> exact ⟨by decide, by decide, by decide, by decide, by decide⟩

theorem digitsOfChars_map_digitChar (ds : List Nat) (h : ∀ d ∈ ds, d < 10) :
    digitsOfChars (ds.map digitChar) = some ds := by
  induction ds with
  | nil => rfl
  | cons d rest ih =>
      have hd := (digitChar_spec d (h d (by simp))).1
      have hrest := ih fun x hx => h x (by simp [hx])
      simp [digitsOfChars, hd, hrest]

theorem mem_digitChar_map {c : Char} {ds : List Nat} (h : ∀ x ∈ ds, x < 10)
    (hm : c ∈ ds.map digitChar) : ∃ d, d < 10 ∧ digitChar d = c := by
  obtain ⟨d, hd, he⟩ := List.mem_map.mp hm
  exact ⟨d, h d hd, he⟩

/-! ### Splitting and stripping lemmas -/

theorem splitOnChar_ne_nil (sep : Char) (cs : List Char) : splitOnChar sep cs ≠ [] := by
  cases cs with
  | nil => simp [splitOnChar]
  | cons c rest =>
      simp only [splitOnChar]
      cases h : splitOnChar sep rest with
      | nil => simp
      | cons a b =>
          show (if c = sep then [] :: a :: b else (c :: a) :: b) ≠ []
          split <;> simp

theorem splitOnChar_of_not_mem (sep : Char) (cs : List Char) (h : sep ∉ cs) :
    splitOnChar sep cs = [cs] := by
  induction cs with
  | nil => rfl
  | cons c rest ih =>
      have hc : ¬c = sep := fun e => h (by simp [e])
      have hrest : sep ∉ rest := fun hx => h (by simp [hx])
      simp only [splitOnChar, ih hrest]
      simp [hc]

theorem splitOnChar_append (sep : Char) (a b : List Char) (h : sep ∉ a) :
    splitOnChar sep (a ++ sep :: b) = a :: splitOnChar sep b := by
  induction a with
  | nil =>
      simp only [List.nil_append, splitOnChar]
      cases hs : splitOnChar sep b with
      | nil => exact absurd hs (splitOnChar_ne_nil sep b)
      | cons x t => simp
  | cons c rest ih =>
      have hc : ¬c = sep := fun e => h (by simp [e])
      have hrest : sep ∉ rest := fun hx => h (by simp [hx])
      simp only [List.cons_append, splitOnChar, List.append_eq]
      rw [ih hrest]
      simp [hc]

theorem rstripPercent_append_percent (cs : List Char) :
    rstripPercent (cs ++ ['%']) = rstripPercent cs := by
  simp [rstripPercent, List.dropWhile]

theorem rstripPercent_of_not_mem (cs : List Char) (h : '%' ∉ cs) :
    rstripPercent cs = cs := by
  rw [rstripPercent]
  cases hr : cs.reverse with
  | nil =>
      have : cs = [] := by simpa using congrArg List.reverse hr
      simp [this]
  | cons x t =>
      have hx : x ∈ cs := by
        rw [← List.mem_reverse, hr]
        simp
      have hxp : (x == '%') = false := by
        simp only [beq_eq_false_iff_ne, ne_eq]
        intro e
        exact h (e ▸ hx)
      have hcs : cs = t.reverse ++ [x] := by simpa using congrArg List.reverse hr
      rw [List.dropWhile_cons, hxp, hcs]
      simp

theorem normFrac_eq_self (ds : List Nat)
    (h : ds = [0] ∨ (ds ≠ [] ∧ ds.getLast? ≠ some 0)) : normFrac ds = ds := by
  rcases h with h | ⟨hne, hlast⟩
  · subst h; rfl
  · have hstrip : stripTrailingZeros ds = ds := by
      rw [stripTrailingZeros]
      cases hr : ds.reverse with
      | nil =>
          have : ds = [] := by simpa using congrArg List.reverse hr
          exact absurd this hne
      | cons x t =>
          have hx : ds.getLast? = some x := by
            rw [List.getLast?_eq_head?_reverse, hr]
            rfl
          have hx0 : (x == 0) = false := by
            simp only [beq_eq_false_iff_ne, ne_eq]
            intro e
            exact hlast (by rw [hx, e])
          have hds : ds = t.reverse ++ [x] := by simpa using congrArg List.reverse hr
          rw [List.dropWhile_cons, hx0, hds]
          simp
    rw [normFrac, hstrip]
    cases ds with
    | nil => exact absurd rfl hne
    | cons x t => rfl

/-! ### The float parse/render round trip -/

theorem percent_not_mem_pyFloatChars (v : PyFloat) (hn : v.normal) :
    '%' ∉ pyFloatChars v := by
  cases v with
  | none => decide
  | some d =>
      obtain ⟨hfr10, _⟩ := hn
      intro hmem
      simp only [pyFloatChars] at hmem
      rcases List.mem_append.mp hmem with h1 | h2
      · obtain ⟨x, hx10, he⟩ :=
          mem_digitChar_map (fun x hx => natDigitsLE_lt_ten _ x (List.mem_reverse.mp hx)) h1
        exact (digitChar_spec x hx10).2.2.1 he
      · rcases List.mem_cons.mp h2 with he | hm
        · exact absurd he.symm (by decide)
        · obtain ⟨x, hx10, he⟩ := mem_digitChar_map hfr10 hm
          exact (digitChar_spec x hx10).2.2.1 he

theorem parsePyFloatChars_pyFloatChars (v : PyFloat) (hn : v.normal) :
    parsePyFloatChars (pyFloatChars v) = some v := by
  cases v with
  | none => decide
  | some d =>
      obtain ⟨hfr10, hcanon⟩ := hn
      have hA10 : ∀ x ∈ natDigits d.intPart, x < 10 :=
        fun x hx => natDigitsLE_lt_ten _ x (List.mem_reverse.mp hx)
      have hdotA : '.' ∉ (natDigits d.intPart).map digitChar := by
        intro hm
        obtain ⟨x, hx10, he⟩ := mem_digitChar_map hA10 hm
        exact (digitChar_spec x hx10).2.1 he
      have hdotB : '.' ∉ d.fracDigits.map digitChar := by
        intro hm
        obtain ⟨x, hx10, he⟩ := mem_digitChar_map hfr10 hm
        exact (digitChar_spec x hx10).2.1 he
      have hne : pyFloatChars (some d) ≠ ['n', 'a', 'n'] := by
        intro he
        have hdot : '.' ∈ pyFloatChars (some d) := by
          simp only [pyFloatChars]
          exact List.mem_append_right _ (List.mem_cons_self _ _)
        rw [he] at hdot
        exact absurd hdot (by decide)
      have hAne : (natDigits d.intPart).map digitChar ≠ [] := by
        simp [natDigits]
        exact natDigitsLE_ne_nil _
      rw [parsePyFloatChars, if_neg hne]
      show (match splitOnChar '.' (pyFloatChars (some d)) with
        | [a] => if a = [] then none
                 else (digitsOfChars a).map fun ds => some ⟨natOfDigits ds, [0]⟩
        | [a, b] =>
            if a = [] then none
            else
              match digitsOfChars a, digitsOfChars b with
              | some da, some db => some (some ⟨natOfDigits da, normFrac db⟩)
              | _, _ => none
        | _ => none) = some (some d)
      rw [show pyFloatChars (some d) =
            (natDigits d.intPart).map digitChar ++ '.' :: d.fracDigits.map digitChar from rfl,
          splitOnChar_append _ _ _ hdotA, splitOnChar_of_not_mem _ _ hdotB]
      simp only [if_neg hAne, digitsOfChars_map_digitChar _ hA10,
        digitsOfChars_map_digitChar _ hfr10, natOfDigits_natDigits,
        normFrac_eq_self _ hcanon]

/-! ### Load/save round trip -/

theorem cleanRow_serializeTask (t : Task) (h : t.wf) :
    cleanRow (serializeTask t) = some ⟨serializeTask t, t.progress_num, t.start, t.endd⟩ := by
  obtain ⟨hnorm, hstart, hend⟩ := h
  rw [cleanRow]
  have hdata : (serializeTask t).progress.data = pyFloatChars t.progress_num ++ ['%'] := rfl
  rw [hdata, rstripPercent_append_percent,
    rstripPercent_of_not_mem _ (percent_not_mem_pyFloatChars _ hnorm),
    parsePyFloatChars_pyFloatChars _ hnorm]
  have hsd : (serializeTask t).start_date = t.row.start_date := rfl
  have hed : (serializeTask t).end_date = t.row.end_date := rfl
  simp only [hsd, hed, ← hstart, ← hend]
  rfl

theorem optMapM_map_some {α β γ : Type} (f : β → Option γ) (g : α → β) (h : α → γ)
    (l : List α) (hl : ∀ a ∈ l, f (g a) = some (h a)) :
    optMapM f (l.map g) = some (l.map h) := by
  induction l with
  | nil => rfl
  | cons a as ih =>
      simp only [List.map_cons, optMapM, hl a (by simp),
        ih fun x hx => hl x (by simp [hx])]

theorem load_data_save_rows (coll : List Task) (h : ∀ t ∈ coll, t.wf) :
    load_data (save_rows coll) =
      coll.map fun t => ⟨serializeTask t, t.progress_num, t.start, t.endd⟩ := by
  rw [load_data, save_rows,
    optMapM_map_some cleanRow serializeTask
      (fun t => ⟨serializeTask t, t.progress_num, t.start, t.endd⟩) coll
      (fun t ht => cleanRow_serializeTask t (h t ht))]

theorem optMapM_eq_none {α β : Type} (f : α → Option β) (l : List α) (a : α)
    (ha : a ∈ l) (hf : f a = none) : optMapM f l = none := by
  induction l with
  | nil => exact absurd ha (by simp)
  | cons x xs ih =>
      rcases List.mem_cons.mp ha with he | hm
      · subst he
        simp [optMapM, hf]
      · rw [optMapM, ih hm]
        cases f x <;> rfl

theorem optMapM_isSome {α β : Type} (f : α → Option β) (l : List α)
    (h : ∀ a ∈ l, f a ≠ none) : ∃ bs, optMapM f l = some bs ∧ bs.length = l.length := by
  induction l with
  | nil => exact ⟨[], rfl, rfl⟩
  | cons x xs ih =>
      obtain ⟨bs, hbs, hlen⟩ := ih fun a ha => h a (by simp [ha])
      cases hx : f x with
      | none => exact absurd hx (h x (by simp))
      | some b =>
          refine ⟨b :: bs, ?_, by simp [hlen]⟩
          rw [optMapM, hx, hbs]

theorem filter_head?_eq_find? {α : Type} (p : α → Bool) (l : List α) :
    (l.filter p).head? = l.find? p := by
  induction l with
  | nil => rfl
  | cons x xs ih =>
      rw [List.filter_cons, List.find?_cons]
      cases hx : p x
      · simp [ih]
      · rfl

/-! ### Fixtures for the concrete scenarios -/

/-- A sheet row with the fields the scenarios vary; the remaining columns are
fixed plausible values. -/
def mkRow (proj tid name prog stat prio : String) (cost : Int) : Row :=
  { project := proj, task_id := tid, task_name := name, ttype := "Construction",
    assigned_to := "A", start_date := "01/01/2025", end_date := "02/01/2025",
    progress := prog, status := stat, priority := prio, budget := 100,
    actual_cost := cost }

def c2task : Task :=
  ⟨mkRow "Villa 5" "T1" "Foundations" "40%" "Not Started" "High" 7,
    some ⟨40, [0]⟩, none, none⟩

/-! ### Claim theorems -/

/-- C2: after `updateProgress` sets the numeric and textual progress fields of
a row matching the task id, its status is re-derived: 100 forces Complete, a
positive value below 100 forces In Progress, and zero leaves the prior status
unchanged. -/
theorem C2_status_rederivation (df : List Task) (tid : String) (p : Nat)
    (_hp : p ≤ 100) (i : Nat) (t t' : Task) (ht : df[i]? = some t)
    (ht' : (updateProgress df tid p)[i]? = some t') (hid : t.row.task_id = tid) :
    t'.progress_num = some ⟨p, [0]⟩ ∧
    t'.row.progress = String.mk ((natDigits p).map digitChar ++ ['%']) ∧
    t'.row.status =
      (if p = 100 then "Complete" else if 0 < p then "In Progress" else t.row.status) := by
  rw [updateProgress, List.getElem?_map, ht, Option.map_some'] at ht'
  have hbeq : (t.row.task_id == tid) = true := by simp [hid]
  rw [hbeq] at ht'
  have ht'' : t' = updateProgressRow p t := (Option.some.inj ht').symm
  subst ht''
  exact ⟨rfl, rfl, rfl⟩

/-- C2 witness: the theorem applied to a one-row frame at progress 100. -/
theorem C2_status_rederivation_witness :
    (updateProgressRow 100 c2task).progress_num = some ⟨100, [0]⟩ ∧
    (updateProgressRow 100 c2task).row.progress =
      String.mk ((natDigits 100).map digitChar ++ ['%']) ∧
    (updateProgressRow 100 c2task).row.status =
      (if 100 = 100 then "Complete"
       else if 0 < 100 then "In Progress" else c2task.row.status) :=
  C2_status_rederivation [c2task] "T1" 100 (by decide) 0 c2task
    (updateProgressRow 100 c2task) (by decide) (by decide) (by decide)

/-- C4: when the save fails, both update handlers surface the failure, keep
the in-memory mutation for retry, leave the remote store untouched, and do
not clear the cache, so a subsequent cached read still serves the previously
loaded (last successfully persisted) collection. -/
theorem C4_failed_save_preserves_state (df cache : List Task) (store : List Row)
    (tid : String) (p : Nat) (c : Int) :
    (progressUpdateHandler df store tid p false).success = false ∧
    (progressUpdateHandler df store tid p false).collection = updateProgress df tid p ∧
    (progressUpdateHandler df store tid p false).store = store ∧
    (progressUpdateHandler df store tid p false).cacheCleared = false ∧
    cacheAfter cache (progressUpdateHandler df store tid p false) = cache ∧
    (costUpdateHandler df store tid c false).success = false ∧
    (costUpdateHandler df store tid c false).collection = updateActualCost df tid c ∧
    (costUpdateHandler df store tid c false).store = store ∧
    (costUpdateHandler df store tid c false).cacheCleared = false ∧
    cacheAfter cache (costUpdateHandler df store tid c false) = cache := by
  simp [progressUpdateHandler, costUpdateHandler, cacheAfter]

/-- C7: serializing a well-formed collection for the store and parsing the
serialized rows yields a collection of the same length in which every task's
numeric progress and both parsed dates are recovered exactly. -/
theorem C7_serialize_parse_roundtrip (coll : List Task) (hwf : ∀ t ∈ coll, t.wf) :
    (load_data (save_rows coll)).length = coll.length ∧
    ∀ (i : Nat) (t t' : Task), coll[i]? = some t →
      (load_data (save_rows coll))[i]? = some t' →
      t'.progress_num = t.progress_num ∧ t'.start = t.start ∧ t'.endd = t.endd := by
  rw [load_data_save_rows coll hwf]
  refine ⟨by simp, fun i t t' ht ht' => ?_⟩
  rw [List.getElem?_map, ht, Option.map_some'] at ht'
  have ht'' : t' = ⟨serializeTask t, t.progress_num, t.start, t.endd⟩ :=
    (Option.some.inj ht').symm
  subst ht''
  exact ⟨rfl, rfl, rfl⟩

def c7rows : List Row :=
  [mkRow "Villa 5" "T1" "Foundations" "75%" "In Progress" "High" 7,
   mkRow "Villa 6" "T2" "Roof" "12.5%" "In Progress" "Low" 3]

/-- C7 witness: the round trip applied to a concrete loaded collection. -/
theorem C7_serialize_parse_roundtrip_witness :
    (load_data (save_rows (load_data c7rows))).length = (load_data c7rows).length :=
  (C7_serialize_parse_roundtrip (load_data c7rows) (by decide)).1

def c8t1 : Task :=
  ⟨mkRow "P1" "T1" "TaskA" "50%" "In Progress" "High" 0, some ⟨50, [0]⟩, none, none⟩

def c8t2 : Task :=
  ⟨mkRow "P1" "T2" "TaskB" "100%" "Complete" "Low" 0, some ⟨100, [0]⟩, none, none⟩

def c8t3 : Task :=
  ⟨mkRow "P2" "T3" "TaskC" "0%" "Not Started" "Critical" 0, some ⟨0, [0]⟩, none, none⟩

/-- C8: criticalPending selects exactly the tasks whose priority is Critical
or High and whose status is not Complete, in collection order (it is a
sublist of the view), and on the fixture
[(P1, High, In Progress), (P1, Low, Complete), (P2, Critical, Not Started)]
it returns exactly the first and third tasks in that order. -/
theorem C8_critical_pending :
    (∀ df : List Task, List.Sublist (criticalPending df) df) ∧
    (∀ (df : List Task) (t : Task),
      t ∈ criticalPending df ↔
        t ∈ df ∧ (t.row.priority = "Critical" ∨ t.row.priority = "High") ∧
          t.row.status ≠ "Complete") ∧
    criticalPending [c8t1, c8t2, c8t3] = [c8t1, c8t3] := by
  refine ⟨fun df => List.filter_sublist df, fun df t => ?_, by decide⟩
  rw [criticalPending, List.mem_filter]
  simp [List.contains, or_comm]

/-- C9: filtering by project then status yields the same rows as filtering by
status then project, for every collection and every pair of predicates. -/
theorem C9_filter_order_commutes (df : List Task) (pf : String) (sf : List String) :
    filterStatuses sf (filterProject pf df) = filterProject pf (filterStatuses sf df) := by
  by_cases h : pf = "All"
  · simp [filterProject, h]
  · simp only [filterProject, if_neg h, filterStatuses]
    rw [List.filter_filter, List.filter_filter]
    exact List.filter_congr fun t ht => by rw [Bool.and_comm]

def c1rows : List Row :=
  [mkRow "Villa 5" "T1" "Foundations" "50%" "In Progress" "High" 0,
   mkRow "Villa 6" "T2" "Roof" "25%" "In Progress" "Low" 0]

/-- C1 evaluated at the failing input: with the Villa 5 project filter active,
the update-progress flow persists only the filtered view — the store that had
two rows ends up holding only the Villa 5 row, and the Villa 6 row is gone. -/
theorem C1_filtered_save_drops_rows :
    ((updateProgressFlow c1rows "Villa 5" ["Construction"] ["In Progress"] "T1" 60).map
        Row.task_id) = ["T1"] ∧
    (load_data c1rows).length = 2 := by decide

def c3good : Row := mkRow "Villa 5" "T1" "Foundations" "40%" "In Progress" "High" 0

def c3bad : Row := mkRow "Villa 5" "T2" "Roof" "abc" "In Progress" "High" 0

/-- C3 fails as stated: the good row alone loads, but adding one row whose
PROGRESS value is not numeric makes the whole load return the empty
collection instead of coercing just that row to NaN. -/
theorem C3_counterexample :
    (load_data [c3good]).length = 1 ∧ load_data [c3good, c3bad] = [] := by decide

/-- C3 amended: a PROGRESS value rejected by float conversion aborts the
whole load, which returns the empty collection; when every PROGRESS value
converts, the full collection is returned (malformed dates merely coerce to
null and never block a row). -/
theorem C3_malformed_progress_aborts_load (rows : List Row) :
    ((∃ r ∈ rows, parsePyFloatChars (rstripPercent r.progress.data) = none) →
      load_data rows = []) ∧
    ((∀ r ∈ rows, parsePyFloatChars (rstripPercent r.progress.data) ≠ none) →
      (load_data rows).length = rows.length) := by
  constructor
  · rintro ⟨r, hr, hp⟩
    rw [load_data, optMapM_eq_none cleanRow rows r hr (by rw [cleanRow, hp]; rfl)]
  · intro h
    have hsome : ∀ r ∈ rows, cleanRow r ≠ none := by
      intro r hr he
      rw [cleanRow] at he
      cases hp : parsePyFloatChars (rstripPercent r.progress.data) with
      | none => exact h r hr hp
      | some v => rw [hp] at he; exact Option.noConfusion he
    obtain ⟨bs, hbs, hlen⟩ := optMapM_isSome cleanRow rows hsome
    rw [load_data, hbs, hlen]

/-- C3 witness: the amended abort behaviour applied at the concrete rows. -/
theorem C3_malformed_progress_aborts_load_witness :
    load_data [c3good, c3bad] = [] :=
  (C3_malformed_progress_aborts_load [c3good, c3bad]).1 ⟨c3bad, by decide, by decide⟩

def c5rows : List Row :=
  [mkRow "Villa 5" "T1" "Foundations" "75%" "In Progress" "High" 7]

/-- C5 fails as stated: after the cost update, a successful save and a fresh
load, T1's actual cost is 5000, but the textual PROGRESS field is no longer
the original text — serialization rewrote it from the numeric column. -/
theorem C5_counterexample :
    ((load_data (save_rows (updateActualCost (load_data c5rows) "T1" 5000))).map
        fun t => t.row.actual_cost) = [5000] ∧
    ((load_data c5rows).map fun t => t.row.progress) = ["75%"] ∧
    ((load_data (save_rows (updateActualCost (load_data c5rows) "T1" 5000))).map
        fun t => t.row.progress) = ["75.0%"] ∧
    ("75%" : String) ≠ "75.0%" := by decide

theorem updateActualCost_wf (coll : List Task) (hwf : ∀ t ∈ coll, t.wf)
    (tid : String) (c : Int) : ∀ t ∈ updateActualCost coll tid c, t.wf := by
  intro t ht
  rw [updateActualCost] at ht
  obtain ⟨s, hs, he⟩ := List.mem_map.mp ht
  have hws := hwf s hs
  rw [← he]
  unfold Task.wf at hws ⊢
  split
  · exact hws
  · exact hws

/-- C5 amended: after the cost update, save and fresh load, every task whose
task id matches has actual cost equal to the new value, every other task's
actual cost is unchanged, the numeric progress and both parsed dates of every
task are recovered exactly, every other raw field is unchanged, and the only
textual change is that PROGRESS is re-rendered from the numeric column. -/
theorem C5_cost_update_roundtrip (coll : List Task) (hwf : ∀ t ∈ coll, t.wf)
    (tid : String) (c : Int) :
    (load_data (save_rows (updateActualCost coll tid c))).length = coll.length ∧
    ∀ (i : Nat) (t t' : Task), coll[i]? = some t →
      (load_data (save_rows (updateActualCost coll tid c)))[i]? = some t' →
      t' = { t with row := { t.row with
          progress := String.mk (pyFloatChars t.progress_num ++ ['%'])
          actual_cost := if t.row.task_id == tid then c else t.row.actual_cost } } := by
  rw [load_data_save_rows _ (updateActualCost_wf coll hwf tid c)]
  refine ⟨by simp [updateActualCost], fun i t t' ht ht' => ?_⟩
  rw [updateActualCost, List.getElem?_map, List.getElem?_map, ht, Option.map_some',
    Option.map_some'] at ht'
  have ht'' := (Option.some.inj ht').symm
  subst ht''
  cases hb : t.row.task_id == tid <;> simp [hb, serializeTask]

/-- C5 witness: the amended round trip applied at the concrete collection. -/
theorem C5_cost_update_roundtrip_witness :
    (load_data (save_rows (updateActualCost (load_data c5rows) "T1" 5000))).length =
      (load_data c5rows).length :=
  (C5_cost_update_roundtrip (load_data c5rows) (by decide) "T1" 5000).1

def c6rows : List Row :=
  [mkRow "Villa 6" "T1" "Roof" "40%" "In Progress" "High" 0]

/-- C6 fails as stated at the report site: on a view with no Villa 5 rows the
weekly report's per-project mean is NaN, not zero. -/
theorem C6_counterexample :
    reportMean (load_data c6rows) "Villa 5" = none ∧ (none : Option ℚ) ≠ some 0 := by
  exact ⟨rfl, by simp⟩

/-- C6 amended: the guarded dashboard metric yields 0 on an empty project
group while the report mean yields NaN there; on a group with at least one
non-null progress value both equal the arithmetic mean of the non-null values
(nulls excluded from numerator and denominator); on a non-empty group whose
progress values are all null both are NaN. -/
theorem C6_mean_progress (df : List Task) (proj : String) :
    (projectGroup df proj = [] →
      villaProgressMetric df proj = some 0 ∧ reportMean df proj = none) ∧
    ((((projectGroup df proj).map Task.progress_num).filterMap
        fun v => Option.map Dec.toRat v) ≠ [] →
      villaProgressMetric df proj =
        some (((((projectGroup df proj).map Task.progress_num).filterMap
            fun v => Option.map Dec.toRat v).sum) /
          (((((projectGroup df proj).map Task.progress_num).filterMap
            fun v => Option.map Dec.toRat v).length : ℚ))) ∧
      reportMean df proj = villaProgressMetric df proj) ∧
    (projectGroup df proj ≠ [] →
      (((projectGroup df proj).map Task.progress_num).filterMap
        fun v => Option.map Dec.toRat v) = [] →
      villaProgressMetric df proj = none ∧ reportMean df proj = none) := by
  refine ⟨fun h => ?_, fun h => ?_, fun hg h => ?_⟩
  · simp [villaProgressMetric, reportMean, seriesMean, h]
  · have hg : projectGroup df proj ≠ [] := by
      intro he
      rw [he] at h
      exact h rfl
    have hpos : 0 < (projectGroup df proj).length := by
      cases hq : projectGroup df proj with
      | nil => exact absurd hq hg
      | cons x xs => simp [hq]
    have hlen : (((projectGroup df proj).map Task.progress_num).filterMap
        fun v => Option.map Dec.toRat v).length ≠ 0 := by
      intro he
      exact h (List.length_eq_zero.mp he)
    constructor
    · rw [villaProgressMetric, if_pos hpos, seriesMean]
      simp only [if_neg hlen]
    · rw [reportMean, villaProgressMetric, if_pos hpos]
  · have hpos : 0 < (projectGroup df proj).length := by
      cases hq : projectGroup df proj with
      | nil => exact absurd hq hg
      | cons x xs => simp [hq]
    have hlen : (((projectGroup df proj).map Task.progress_num).filterMap
        fun v => Option.map Dec.toRat v).length = 0 := by rw [h]; rfl
    constructor
    · rw [villaProgressMetric, if_pos hpos, seriesMean]
      simp only [if_pos hlen]
    · rw [reportMean, seriesMean]
      simp only [if_pos hlen]

/-- C6 witness: the amended statement applied at a view with no Villa 5
rows. -/
theorem C6_mean_progress_witness :
    villaProgressMetric (load_data c6rows) "Villa 5" = some 0 ∧
    reportMean (load_data c6rows) "Villa 5" = none :=
  (C6_mean_progress (load_data c6rows) "Villa 5").1 (by decide)

def c10t1 : Task :=
  ⟨mkRow "Villa 5" "T1" "First" "10%" "In Progress" "High" 7, some ⟨10, [0]⟩, none, none⟩

def c10t2 : Task :=
  ⟨mkRow "Villa 5" "T1" "Second" "20%" "In Progress" "Low" 7, some ⟨20, [0]⟩, none, none⟩

def c10df : List Task := [c10t1, c10t2]

/-- C10 fails as stated: with a duplicated task id, the cost mutation's
locate step updates every matching row — both rows end up with the new cost,
not only the first. -/
theorem C10_counterexample :
    ((updateActualCost c10df "T1" 5000).map fun t => t.row.actual_cost) = [5000, 5000] ∧
    (c10df.map fun t => t.row.actual_cost) = [7, 7] := by decide

/-- C10 amended: the display lookup takes the first matching row, while the
locate step of both mutations applies the update to every row whose task id
matches. -/
theorem C10_lookup_first_update_all (df : List Task) (tid : String) (c : Int) (p : Nat) :
    taskNameLookup df tid =
      (df.find? fun t => t.row.task_id == tid).map (fun t => t.row.task_name) ∧
    ∀ (i : Nat) (t : Task), df[i]? = some t →
      (updateActualCost df tid c)[i]? =
        some (if t.row.task_id == tid then
          { t with row := { t.row with actual_cost := c } } else t) ∧
      (updateProgress df tid p)[i]? =
        some (if t.row.task_id == tid then updateProgressRow p t else t) := by
  constructor
  · rw [taskNameLookup, List.head?_map, filter_head?_eq_find?]
  · intro i t ht
    rw [updateActualCost, updateProgress, List.getElem?_map, List.getElem?_map, ht]
    exact ⟨rfl, rfl⟩

/-- C10 witness: the amended statement applied at the duplicated-id frame. -/
theorem C10_lookup_first_update_all_witness :
    (updateActualCost c10df "T1" 5000)[0]? =
      some (if c10t1.row.task_id == "T1" then
        { c10t1 with row := { c10t1.row with actual_cost := 5000 } } else c10t1) ∧
    (updateProgress c10df "T1" 30)[0]? =
      some (if c10t1.row.task_id == "T1" then updateProgressRow 30 c10t1 else c10t1) :=
  (C10_lookup_first_update_all c10df "T1" 5000 30).2 0 c10t1 (by decide)

end VillaPM
